import Mathlib

/-!
Verification of the promo_marketing tabular filter-and-diff engine.

This file gives a shallow embedding, in Lean 4, of the deterministic
data-transformation core of the repository:

* `load_sheet_to_df` (google_sheets.py, lines 38-43): turning a raw grid of
  string cells into a table (the `pd.DataFrame(values[1:], columns=values[0])`
  construction, including its padding of ragged rows and its failure when the
  widest data row does not match the header width);
* `filter_promo_data` (google_sheets.py, lines 45-169): geography validation,
  null normalisation, required-column dropping, Year filtering, date parsing
  in day.month.year format, the four date-matching modes, category/subcategory
  and project masks, the six-column output projection, numeric coercion of the
  position column and the final sort;
* `track_data_changes` (history_tracker.py, lines 71-158): coarse change
  detection by content hash with a 100-entry history cap;
* `get_detailed_row_changes` (history_tracker.py, lines 336-463): the
  row-level differ with its composite-key correlation and its in-place
  mutation of the caller's DataFrames (modelled by returning the final states
  of both inputs).

Cells are `Option String` (`none` is pandas NA / Python None).  Numeric values
produced by `pd.to_numeric` are modelled as exact decimals (an integer
mantissa with a power-of-ten scale); dates are day/month/year triples compared
through the order-preserving key `y*10000 + m*100 + d`.  All definitions are
computable and evaluate inside the kernel.
-/

namespace Promo

/-! ### String utilities (structural, kernel-evaluable) -/

/-- ASCII lower-casing of one character, as `str.lower` acts on the ASCII
range (project tags and the sentinel `all` are ASCII in this data set). -/
def lowerChar (c : Char) : Char :=
  if 65 ≤ c.toNat ∧ c.toNat ≤ 90 then Char.ofNat (c.toNat + 32) else c

/-- Lower-case a string character-wise. -/
def lowerStr (s : String) : String := ⟨s.toList.map lowerChar⟩

/-- Does the second list start with the first? -/
def leadsWith : List Char → List Char → Bool
  | [], _ => true
  | _ :: _, [] => false
  | p :: ps, c :: cs => p == c && leadsWith ps cs

/-- Does `s` contain `pat` as a contiguous run? -/
def containsSub : List Char → List Char → Bool
  | pat, [] => pat.isEmpty
  | pat, c :: cs => leadsWith pat (c :: cs) || containsSub pat cs

/-- Substring test: model of `pandas.Series.str.contains` with a literal
(regex-metacharacter-free) pattern. -/
def strContains (s pat : String) : Bool := containsSub pat.toList s.toList

/-- Suffix test: model of the regex pattern `", proj$"` used by the project
mask (the pattern occurs anchored at the end of the string). -/
def strEndsWith (s pat : String) : Bool :=
  leadsWith pat.toList.reverse s.toList.reverse

/-- Split a character list on a separator character; `splitOnChar c []`
is `[[]]`, matching `"".split(sep)` returning one empty field. -/
def splitOnChar (sep : Char) : List Char → List (List Char)
  | [] => [[]]
  | x :: xs =>
    let r := splitOnChar sep xs
    if x == sep then [] :: r
    else
      match r with
      | [] => [[x]]
      | h :: t => (x :: h) :: t

/-- Value of a non-empty all-digit character list, `none` otherwise. -/
def charsToNat? (cs : List Char) : Option Nat :=
  if cs.isEmpty then none
  else if cs.all Char.isDigit then
    some (cs.foldl (fun n c => n * 10 + (c.toNat - 48)) 0)
  else none

/-- Decimal digits of a natural number, most significant first
(`fuel` bounds the recursion; it is always called with enough fuel). -/
def natDigitsAux : Nat → Nat → List Char
  | 0, _ => []
  | fuel + 1, n =>
    if n = 0 then []
    else natDigitsAux fuel (n / 10) ++ [Char.ofNat (48 + n % 10)]

/-- Render a natural number in decimal. -/
def natToString (n : Nat) : String :=
  if n = 0 then "0" else ⟨natDigitsAux (n + 1) n⟩

/-- Join a list of strings with a separator, as Python `sep.join(xs)`. -/
def joinSep (sep : String) : List String → String
  | [] => ""
  | [x] => x
  | x :: y :: xs => x ++ sep ++ joinSep sep (y :: xs)

/-! ### Exact decimals: the model of `pd.to_numeric` results -/

/-- An exact decimal number `m / 10 ^ s`: the value class of the numbers
`pd.to_numeric` produces for the decimal literals found in the sheet. -/
structure Dec where
  m : Int
  s : Nat
deriving DecidableEq, Repr

/-- Order on decimals by cross-multiplication with positive powers of ten. -/
def Dec.le (a b : Dec) : Bool :=
  decide (a.m * (((10 : Nat) ^ b.s : Nat) : Int) ≤ b.m * (((10 : Nat) ^ a.s : Nat) : Int))

/-- Is the decimal strictly greater than the natural number `n`? -/
def Dec.gtNat (d : Dec) (n : Nat) : Bool :=
  decide ((n : Int) * (((10 : Nat) ^ d.s : Nat) : Int) < d.m)

/-- Parse a decimal literal the way `pd.to_numeric(..., errors='coerce')`
accepts the values occurring here: optional surrounding blanks, an optional
sign, an integer part and an optional fractional part (at least one digit in
total).  Exponent notation is not modelled; no claim depends on it. -/
def parseNum? (s : String) : Option Dec :=
  let cs := (s.toList.dropWhile (· == ' ')).reverse.dropWhile (· == ' ') |>.reverse
  let (neg, cs) :=
    match cs with
    | '-' :: rest => (true, rest)
    | '+' :: rest => (false, rest)
    | rest => (false, rest)
  match splitOnChar '.' cs with
  | [a] =>
    match charsToNat? a with
    | some n => some ⟨if neg then -(n : Int) else (n : Int), 0⟩
    | none => none
  | [a, b] =>
    if a.isEmpty && b.isEmpty then none
    else
      let na := if a.isEmpty then some 0 else charsToNat? a
      let nb := if b.isEmpty then some 0 else charsToNat? b
      match na, nb with
      | some x, some y =>
        let mant : Nat := x * (10 : Nat) ^ b.length + y
        some ⟨if neg then -(mant : Int) else (mant : Int), b.length⟩
      | _, _ => none
  | _ => none

/-! ### Dates in `%d.%m.%Y` format -/

/-- A calendar date as parsed by `datetime.strptime(s, '%d.%m.%Y')`. -/
structure SDate where
  day : Nat
  month : Nat
  year : Nat
deriving DecidableEq, Repr

/-- Gregorian leap-year rule (used by `datetime` for day-of-month checks). -/
def isLeap (y : Nat) : Bool := y % 4 == 0 && (y % 100 != 0 || y % 400 == 0)

/-- Number of days in a month. -/
def daysInMonth (m y : Nat) : Nat :=
  if m = 2 then (if isLeap y then 29 else 28)
  else if m = 4 ∨ m = 6 ∨ m = 9 ∨ m = 11 then 30
  else 31

/-- Parse `'%d.%m.%Y'`: one or two day digits, one or two month digits, four
year digits, separated by dots, with the whole string consumed, and the
resulting triple a valid calendar date (as `strptime`/`datetime` enforce). -/
def parseDate? (s : String) : Option SDate :=
  match splitOnChar '.' s.toList with
  | [ds, ms, ys] =>
    if 1 ≤ ds.length ∧ ds.length ≤ 2 ∧ 1 ≤ ms.length ∧ ms.length ≤ 2 ∧ ys.length = 4 then
      match charsToNat? ds, charsToNat? ms, charsToNat? ys with
      | some d, some m, some y =>
        if 1 ≤ d ∧ 1 ≤ m ∧ m ≤ 12 ∧ 1 ≤ y ∧ d ≤ daysInMonth m y then
          some ⟨d, m, y⟩
        else none
      | _, _, _ => none
    else none
  | _ => none

/-- Order-preserving key of a date: datetime comparison on valid dates agrees
with natural-number comparison of this key. -/
def SDate.key (d : SDate) : Nat := d.year * 10000 + d.month * 100 + d.day

/-- In-range day and month fields: what `parseDate?` guarantees, and what
makes `SDate.key` injective. -/
def SDate.Valid (d : SDate) : Prop :=
  1 ≤ d.day ∧ d.day ≤ 31 ∧ 1 ≤ d.month ∧ d.month ≤ 12

instance (d : SDate) : Decidable d.Valid := by
  unfold SDate.Valid; infer_instance

/-- Two-digit zero padding, as `strftime('%d')` / `strftime('%m')`. -/
def pad2 (n : Nat) : String := if n < 10 then "0" ++ natToString n else natToString n

/-- Four-digit zero padding, as `strftime('%Y')` renders the years here. -/
def pad4 (n : Nat) : String :=
  if n < 10 then "000" ++ natToString n
  else if n < 100 then "00" ++ natToString n
  else if n < 1000 then "0" ++ natToString n
  else natToString n

/-- `strftime('%d.%m.%Y')`. -/
def fmtDate (d : SDate) : String := pad2 d.day ++ "." ++ pad2 d.month ++ "." ++ pad4 d.year

/-! ### Tables -/

/-- A cell: `none` is pandas NA / Python None, `some s` a string value. -/
abbrev Cell := Option String

/-- A DataFrame: a header of column names and rows of cells, row `i` being
the row at positional index `i` (the default RangeIndex). -/
structure DF where
  cols : List String
  rows : List (List Cell)
deriving DecidableEq, Repr

/-- Column access `row[c]` for the column named `c` (positional lookup of the
first column with that name, `none` when the column is absent). -/
def getCell (cols : List String) (row : List Cell) (c : String) : Cell :=
  match cols.findIdx? (fun x => x == c) with
  | none => none
  | some i => row.getD i none

/-! ### Tabular loader: `load_sheet_to_df`, google_sheets.py lines 38-43 -/

inductive LoadError where
  | noData
  | shapeMismatch
deriving DecidableEq, Repr

/-- Widest row of a grid. -/
def maxWidth (rows : List (List String)) : Nat :=
  rows.foldr (fun r acc => max r.length acc) 0

/-- `values = result.get('values', []); if not values: raise ValueError(...);
df = pd.DataFrame(values[1:], columns=values[0])`.  The `pd.DataFrame`
list-of-lists constructor pads every data row with `None` cells up to the
width of the widest data row, and fails when that width differs from the
number of column labels passed. -/
def load_sheet_to_df (values : List (List String)) : Except LoadError DF :=
  match values with
  | [] => .error .noData
  | header :: dataRows =>
    if dataRows.isEmpty then .ok ⟨header, []⟩
    else
      let w := maxWidth dataRows
      if w = header.length then
        .ok ⟨header, dataRows.map (fun r => r.map some ++ List.replicate (w - r.length) none)⟩
      else .error .shapeMismatch

/-! ### Promo filter: `filter_promo_data`, google_sheets.py lines 45-169 -/

inductive FilterError where
  | invalidGeo
  | missingSubcategory
  | missingColumn
  | queryDateParse
  | dateParse
deriving DecidableEq, Repr

/-- `valid_geos`, line 64. -/
def validGeos : List String :=
  ["RU", "KZ", "UA", "CA", "DE", "AU", "BR", "PL", "PT", "CH", "AT"]

/-- `df.replace({None: pd.NA, '': pd.NA})`, line 72: empty strings become
missing values. -/
def normCell : Cell → Cell
  | none => none
  | some s => if s = "" then none else some s

/-- Cell normalisation applied to the whole frame. -/
def normDF (df : DF) : DF := ⟨df.cols, df.rows.map (fun r => r.map normCell)⟩

/-- `required_columns`, lines 75-79: the category-name column is required
exactly when the query category is "КАТЕГОРИЯ". -/
def requiredColumns (category : String) : List String :=
  ["Старт промо", "Завершение промо", "Категория", "Проект", "Игра", "Провайдер"]
    ++ (if category = "КАТЕГОРИЯ" then ["Название категории"] else [])

/-- `df.dropna(subset=required_columns)`, line 82: keep rows whose required
cells are all present. -/
def dropnaRows (cols req : List String) (rows : List (List Cell)) : List (List Cell) :=
  rows.filter (fun r => req.all (fun c => (getCell cols r c).isSome))

/-- Year filter, lines 85-91: when a "Год" column exists, coerce it to
numeric, drop unparseable values and keep only years strictly above 2024. -/
def yearFilter (df : DF) : DF :=
  if df.cols.contains "Год" then
    ⟨df.cols, df.rows.filter (fun r =>
      match (getCell df.cols r "Год").bind parseNum? with
      | none => false
      | some d => d.gtNat 2024)⟩
  else df

/-- Row-date parsing, lines 98-99: `pd.to_datetime(col, format='%d.%m.%Y')`
on both promo-date columns raises on the first unparseable value, aborting
the whole call (all rows reaching this step have non-missing date cells). -/
def parseRowDates (cols : List String) :
    List (List Cell) → Except FilterError (List (List Cell × SDate × SDate))
  | [] => .ok []
  | r :: rs =>
    match (getCell cols r "Старт промо").bind parseDate?,
          (getCell cols r "Завершение промо").bind parseDate? with
    | some s, some e =>
      match parseRowDates cols rs with
      | .ok ts => .ok ((r, s, e) :: ts)
      | .error err => .error err
    | _, _ => .error .dateParse

/-- Date mask, lines 101-119: the four modes selected by the two exact
flags.  Dates are compared through their order-preserving keys, exactly as
`datetime` comparison orders valid dates. -/
def dateMask (exact_start_date exact_end_date : Bool) (query_start query_end s e : SDate) :
    Bool :=
  if exact_start_date && exact_end_date then
    (s.key == query_start.key) && (e.key == query_end.key)
  else if exact_start_date && !exact_end_date then
    s.key == query_start.key
  else if !exact_start_date && exact_end_date then
    e.key == query_end.key
  else
    decide (s.key ≤ query_end.key) && decide (query_start.key ≤ e.key)

/-- Category mask, lines 121-125. -/
def categoryMask (cols : List String) (category : String) (subcategory : Option String)
    (row : List Cell) : Bool :=
  if category = "КАТЕГОРИЯ" then
    (getCell cols row "Категория" == some category)
      && (getCell cols row "Название категории" == subcategory)
  else
    getCell cols row "Категория" == some category

/-- Project mask, lines 127-140.  With a non-empty query list the mask is the
lower-cased substring test for "all" OR, for each queried tag, the union of
the four `str.contains` patterns of lines 134-137 (plain substring, tag
followed by a comma, tag between ", " and ",", and ", tag" at end of
string). -/
def projectMask (project : List String) (cell : Cell) : Bool :=
  match project with
  | [] => true
  | _ =>
    let s := cell.getD ""
    strContains (lowerStr s) "all"
      || project.any (fun proj =>
        strContains s proj
          || strContains s (proj ++ ",")
          || strContains s (", " ++ proj ++ ",")
          || strEndsWith s (", " ++ proj))

/-- One row of the six-column output frame.  `pos` is the position value
after the `pd.to_numeric(..., errors='coerce')` coercion of line 163. -/
structure FinalRow where
  pos : Option Dec
  game : Cell
  provider : Cell
  period : String
  projects : Cell
  category : Cell
deriving DecidableEq, Repr

/-- The output frame of the filter. -/
structure FinalDF where
  cols : List String
  rows : List FinalRow
deriving DecidableEq, Repr

/-- The six output columns in their final order, line 160. -/
def finalCols : List String :=
  ["Позиция", "Игра", "Провайдер", "Период", "Проекты", "Категория"]

/-- Which column supplies the position value, lines 154-157. -/
def posColumn (category geo : String) : String :=
  if category = "КАТЕГОРИЯ" ∨ category = "НОВИНКИ" then "Позиция" else geo

/-- One output row before the numeric coercion of the position column:
lines 145-157 (the "Период" string is built from the two parsed dates with
`strftime('%d.%m.%Y')` on each side). -/
structure FinalRowRaw where
  pos : Cell
  game : Cell
  provider : Cell
  period : String
  projects : Cell
  category : Cell
deriving DecidableEq, Repr

def buildRow (cols : List String) (category geo : String)
    (t : List Cell × SDate × SDate) : FinalRowRaw :=
  { pos := getCell cols t.1 (posColumn category geo)
    game := getCell cols t.1 "Игра"
    provider := getCell cols t.1 "Провайдер"
    period := fmtDate t.2.1 ++ " - " ++ fmtDate t.2.2
    projects := getCell cols t.1 "Проект"
    category := getCell cols t.1 "Категория" }

/-- `pd.to_numeric(final_df['Позиция'], errors='coerce')`, line 163. -/
def coerceRow (r : FinalRowRaw) : FinalRow :=
  ⟨r.pos.bind parseNum?, r.game, r.provider, r.period, r.projects, r.category⟩

/-- The sort key order of `final_df.sort_values('Позиция')`: ascending by
position with NA last (`na_position='last'`). -/
def posLE (a b : Option Dec) : Bool :=
  match a, b with
  | none, none => true
  | none, some _ => false
  | some _, none => true
  | some x, some y => x.le y

def finalLE (a b : FinalRow) : Bool := posLE a.pos b.pos

/-- The sort order as a relation, for the sort and its correctness lemmas. -/
def finalRel (a b : FinalRow) : Prop := finalLE a b = true

instance : DecidableRel finalRel := fun a b => by unfold finalRel; infer_instance

/-- `final_df.sort_values('Позиция')` followed by `reset_index(drop=True)`,
lines 164-167.  Pandas sorts with the default `kind='quicksort'`, which
guarantees the key order — ascending position with missing values last — but
NOT the relative order of rows with equal positions.  An executable model
must still fix one deterministic output; this one keeps ties in input order
(insertion sort).  No theorem in this file relies on the tie order: the
statements proved about sorted output are key-order- or membership-based and
hold for every admissible tie order. -/
def sortFinal (l : List FinalRow) : List FinalRow := l.insertionSort finalRel

/-- Lines 143-167: apply the combined mask, project to the six output
columns, coerce the position column and sort.  Reading the position source
column raises `KeyError` when it is absent from the frame. -/
def buildFinal (cols : List String) (category geo : String)
    (survivors : List (List Cell × SDate × SDate)) : Except FilterError FinalDF :=
  if cols.contains (posColumn category geo) then
    .ok ⟨finalCols, sortFinal ((survivors.map (buildRow cols category geo)).map coerceRow)⟩
  else .error .missingColumn

/-- The table after normalisation, required-column dropping and Year
filtering (lines 68-91): the rows whose dates are then parsed. -/
def droppedRows (df : DF) (category : String) : DF :=
  yearFilter ⟨(normDF df).cols,
    dropnaRows (normDF df).cols (requiredColumns category) (normDF df).rows⟩

/-- The combined date/category/project mask of lines 101-143 applied to the
date-annotated rows. -/
def survivorRows (category : String) (subcategory : Option String) (project : List String)
    (exact_start_date exact_end_date : Bool) (query_start query_end : SDate)
    (cols : List String) (parsed : List (List Cell × SDate × SDate)) :
    List (List Cell × SDate × SDate) :=
  parsed.filter (fun t =>
    dateMask exact_start_date exact_end_date query_start query_end t.2.1 t.2.2
      && categoryMask cols category subcategory t.1
      && projectMask project (getCell cols t.1 "Проект"))

/-- Everything after the geography check, lines 68-169. -/
def filterBody (df : DF) (start_date end_date category : String) (project : List String)
    (geo : String) (subcategory : Option String) (exact_start_date exact_end_date : Bool) :
    Except FilterError FinalDF :=
  if category = "КАТЕГОРИЯ" ∧ subcategory = none then .error .missingSubcategory
  else if (requiredColumns category).all (fun c => (normDF df).cols.contains c) then
    match parseDate? start_date, parseDate? end_date with
    | some query_start, some query_end =>
      match parseRowDates (droppedRows df category).cols (droppedRows df category).rows with
      | .ok parsed =>
        buildFinal (droppedRows df category).cols category geo
          (survivorRows category subcategory project exact_start_date exact_end_date
            query_start query_end (droppedRows df category).cols parsed)
      | .error err => .error err
    | _, _ => .error .queryDateParse
  else .error .missingColumn

/-- `filter_promo_data`, google_sheets.py lines 45-169. -/
def filter_promo_data (df : DF) (start_date end_date category : String)
    (project : List String) (geo : String) (subcategory : Option String)
    (exact_start_date exact_end_date : Bool) : Except FilterError FinalDF :=
  if validGeos.contains geo then
    filterBody df start_date end_date category project geo subcategory
      exact_start_date exact_end_date
  else .error .invalidGeo

/-! ### Coarse change tracker: `track_data_changes`, history_tracker.py 71-158 -/

/-- `current_data.replace({None: '', pd.NA: ''}).fillna('')`, line 91:
every missing cell becomes the empty string. -/
def normTrack (df : DF) : DF :=
  ⟨df.cols, df.rows.map (fun r => r.map (fun c => some (c.getD "")))⟩

/-- CSV field quoting as `DataFrame.to_csv` emits it: fields containing a
comma, a double quote or a line break are quoted, with quotes doubled. -/
def csvField (s : String) : String :=
  let dq := Char.ofNat 34
  if s.toList.any (fun ch => ch == ',' || ch == dq || ch == '\n' || ch == '\r') then
    String.mk (dq :: s.toList.foldr
      (fun ch acc => if ch == dq then dq :: dq :: acc else ch :: acc) [dq])
  else s

/-- One CSV line. -/
def csvLine (cells : List String) : String := joinSep "," (cells.map csvField) ++ "\n"

/-- `current_data.to_csv(index=False)`, line 94: header line then one line
per row. -/
def to_csv (df : DF) : String :=
  csvLine df.cols ++ String.join (df.rows.map (fun r => csvLine (r.map (fun c => c.getD ""))))

/-- One entry of the coarse change log (the wall-clock timestamp the code
also stores is not modelled; no claim concerns it). -/
structure ChangeEntry where
  has_changes : Bool
  current_hash : String
  previous_hash : Option String
  rows_count : Nat
  columns_count : Nat
deriving DecidableEq, Repr

/-- The persisted state of `changes_log.json`: the bounded change list and
the last known hash. -/
structure History where
  changes : List ChangeEntry
  last_hash : Option String
deriving DecidableEq, Repr

/-- Python `l[-100:]` generalised: the last `n` elements. -/
def lastN (n : Nat) (l : List α) : List α := l.drop (l.length - n)

/-- `track_data_changes`, lines 86-158, with the digest function abstracted
(the code uses `hashlib.md5(content.encode()).hexdigest()`): normalise the
current table, hash its CSV serialisation, compare with the stored hash, and
on a change append the entry and truncate the log to its last 100 entries.
The function returns the change entry and the persisted state after the
call. -/
def track_data_changes (hash : String → String) (current_data : DF)
    (history : History) : ChangeEntry × History :=
  let current := normTrack current_data
  let current_hash := hash (to_csv current)
  let has_changes : Bool :=
    match history.last_hash with
    | none => true
    | some h => current_hash != h
  let info : ChangeEntry :=
    ⟨has_changes, current_hash, history.last_hash, current.rows.length, current.cols.length⟩
  if has_changes then
    (info, ⟨lastN 100 (history.changes ++ [info]), some current_hash⟩)
  else
    (info, history)

/-! ### Row-level differ: `get_detailed_row_changes`, history_tracker.py 336-463 -/

/-- One entry of `added_rows` / `deleted_rows`.  In the normal branch the
code stores `{'row_key': key, 'data': record}`; in the one-side-empty
short-circuit branches it stores the bare records, modelled with
`row_key = none`. -/
structure DiffRow where
  row_key : Option String
  data : List (String × Cell)
deriving DecidableEq, Repr

structure CellChange where
  column : String
  old_value : Option String
  new_value : Option String
deriving DecidableEq, Repr

structure ModifiedRow where
  row_key : String
  changes : List CellChange
  old_data : List (String × Cell)
  new_data : List (String × Cell)
deriving DecidableEq, Repr

structure DiffSummary where
  total_changes : Nat
  rows_added : Nat
  rows_deleted : Nat
  rows_modified : Nat
  cells_changed : Nat
deriving DecidableEq, Repr

/-- The result dictionary (the `column_changes` field of the code is never
written and stays the empty list; it is omitted). -/
structure Changes where
  added_rows : List DiffRow
  deleted_rows : List DiffRow
  modified_rows : List ModifiedRow
  summary : DiffSummary
deriving DecidableEq, Repr

/-- `df.empty`: true when either axis has length zero. -/
def dfEmpty (df : DF) : Bool := df.rows.isEmpty || df.cols.isEmpty

/-- The natural key columns probed at lines 382-385. -/
def naturalKeys : List String := ["Игра", "Провайдер", "Старт промо", "Завершение промо"]

/-- `astype(str)` of one cell: a missing value prints as "nan". -/
def cellStr (c : Cell) : String := c.getD "nan"

/-- The composite key of a row, line 394:
`'||'.join(str(row[c]) for c in key_columns)`. -/
def compositeKey (cols keyCols : List String) (row : List Cell) : String :=
  joinSep "||" (keyCols.map (fun c => cellStr (getCell cols row c)))

/-- Column assignment `df[name] = vals`: replaces the column in place when it
exists, otherwise appends it on the right. -/
def setCol (df : DF) (name : String) (vals : List Cell) : DF :=
  match df.cols.findIdx? (fun x => x == name) with
  | some i => ⟨df.cols, (df.rows.zip vals).map (fun p => p.1.set i p.2)⟩
  | none => ⟨df.cols ++ [name], (df.rows.zip vals).map (fun p => p.1 ++ [p.2])⟩

/-- `df['_row_key'] = df.index`, lines 389-390. -/
def withRowKey (df : DF) : DF :=
  setCol df "_row_key" ((List.range df.rows.length).map (fun i => some (natToString i)))

/-- Deduplication keeping first occurrences: the deterministic model of the
Python `set(...)` views used for key comparison (only membership and counts
of these sets are observable in the claims). -/
def dedupAux : List String → List String → List String
  | _, [] => []
  | seen, x :: xs =>
    if seen.contains x then dedupAux seen xs
    else x :: dedupAux (x :: seen) xs

def dedupKeys (l : List String) : List String := dedupAux [] l

/-- The row record `row.to_dict()` minus the service key column,
lines 403-404. -/
def rowRecord (cols : List String) (row : List Cell) : List (String × Cell) :=
  (cols.zip row).filter (fun p => !(p.1 == "_composite_key"))

/-- First row carrying the given composite key (`df[df['_composite_key'] ==
key].iloc[0]`; the key always occurs in the rows this is called on). -/
def findByKey (df : DF) (k : String) : List Cell :=
  (df.rows.find? (fun r => getCell df.cols r "_composite_key" == some k)).getD []

/-- Per-cell comparison of two correlated rows, lines 426-442: iterate the
old frame's columns, skip the service column, treat a column absent from the
new frame as missing, skip cells missing on both sides, and record a change
when exactly one side is missing or the values differ. -/
def cellChanges (oldCols newCols : List String) (orow nrow : List Cell) : List CellChange :=
  oldCols.filterMap (fun column =>
    if column == "_composite_key" then none
    else
      let old_value := getCell oldCols orow column
      let new_value := if newCols.contains column then getCell newCols nrow column else none
      if old_value.isNone && new_value.isNone then none
      else if old_value.isNone || new_value.isNone || !(old_value == new_value) then
        some ⟨column, old_value, new_value⟩
      else none)

/-- `get_detailed_row_changes`, lines 336-463.  The Python function mutates
`old_df` and `new_df` in place (service key columns); the model returns the
final states of both frames alongside the change report. -/
def get_detailed_row_changes (old_df new_df : DF) : Changes × DF × DF :=
  if dfEmpty old_df && dfEmpty new_df then
    (⟨[], [], [], ⟨0, 0, 0, 0, 0⟩⟩, old_df, new_df)
  else if dfEmpty old_df then
    (⟨new_df.rows.map (fun r => ⟨none, new_df.cols.zip r⟩), [], [],
      ⟨new_df.rows.length, new_df.rows.length, 0, 0, 0⟩⟩, old_df, new_df)
  else if dfEmpty new_df then
    (⟨[], old_df.rows.map (fun r => ⟨none, old_df.cols.zip r⟩), [],
      ⟨old_df.rows.length, 0, old_df.rows.length, 0, 0⟩⟩, old_df, new_df)
  else
    let key_columns := naturalKeys.filter
      (fun c => old_df.cols.contains c && new_df.cols.contains c)
    let old1 := if key_columns.isEmpty then withRowKey old_df else old_df
    let new1 := if key_columns.isEmpty then withRowKey new_df else new_df
    let keyCols := if key_columns.isEmpty then ["_row_key"] else key_columns
    let oldKeyVals := old1.rows.map (compositeKey old1.cols keyCols)
    let newKeyVals := new1.rows.map (compositeKey new1.cols keyCols)
    let old2 := setCol old1 "_composite_key" (oldKeyVals.map some)
    let new2 := setCol new1 "_composite_key" (newKeyVals.map some)
    let added_keys := (dedupKeys newKeyVals).filter (fun k => !(oldKeyVals.contains k))
    let deleted_keys := (dedupKeys oldKeyVals).filter (fun k => !(newKeyVals.contains k))
    let common_keys := (dedupKeys oldKeyVals).filter (fun k => newKeyVals.contains k)
    let added := added_keys.map (fun k => (⟨some k, rowRecord new2.cols (findByKey new2 k)⟩ : DiffRow))
    let deleted := deleted_keys.map (fun k => (⟨some k, rowRecord old2.cols (findByKey old2 k)⟩ : DiffRow))
    let modified := common_keys.filterMap (fun k =>
      let orow := findByKey old2 k
      let nrow := findByKey new2 k
      let cc := cellChanges old2.cols new2.cols orow nrow
      if cc.isEmpty then none
      else some (⟨k, cc, rowRecord old2.cols orow, rowRecord new2.cols nrow⟩ : ModifiedRow))
    (⟨added, deleted, modified,
      ⟨added.length + deleted.length + modified.length,
        added.length, deleted.length, modified.length,
        (modified.map (fun m => m.changes.length)).sum⟩⟩, old2, new2)

/-! ### Concrete example data -/

/-- A one-row promo table used for concrete evaluations: its Project field is
the tag list "ROX, SOL" from the spec's own example. -/
def sampleT : DF :=
  ⟨["Игра", "Провайдер", "Категория", "Проект", "Старт промо", "Завершение промо", "RU"],
   [[some "Book of Ra", some "Novomatic", some "Слоты", some "ROX, SOL",
     some "10.01.2025", some "20.01.2025", some "2"]]⟩

/-- Like `sampleT` but with an unparseable promo start date (31 February). -/
def sampleBadDate : DF :=
  ⟨["Игра", "Провайдер", "Категория", "Проект", "Старт промо", "Завершение промо", "RU"],
   [[some "Book of Ra", some "Novomatic", some "Слоты", some "ROX, SOL",
     some "31.02.2025", some "20.01.2025", some "2"]]⟩

/-! ## Lemmas about the order used by the final sort -/

theorem Dec.le_total' (a b : Dec) : a.le b = true ∨ b.le a = true := by
  simp only [Dec.le, decide_eq_true_eq]
  exact Int.le_total _ _

theorem Dec.le_trans' {a b c : Dec} (h1 : a.le b = true) (h2 : b.le c = true) :
    a.le c = true := by
  simp only [Dec.le, decide_eq_true_eq] at h1 h2 ⊢
  have hx : (0 : Int) < (((10 : Nat) ^ a.s : Nat) : Int) := by positivity
  have hy : (0 : Int) < (((10 : Nat) ^ b.s : Nat) : Int) := by positivity
  have hz : (0 : Int) < (((10 : Nat) ^ c.s : Nat) : Int) := by positivity
  have h3 := mul_le_mul_of_nonneg_right h1 hz.le
  have h4 := mul_le_mul_of_nonneg_right h2 hx.le
  have h5 : (((10 : Nat) ^ b.s : Nat) : Int) * (a.m * (((10 : Nat) ^ c.s : Nat) : Int))
      ≤ (((10 : Nat) ^ b.s : Nat) : Int) * (c.m * (((10 : Nat) ^ a.s : Nat) : Int)) := by
    nlinarith [h3, h4]
  exact le_of_mul_le_mul_left h5 hy

theorem posLE_total (a b : Option Dec) : posLE a b = true ∨ posLE b a = true := by
  cases a <;> cases b <;> simp [posLE]
  exact Dec.le_total' _ _

theorem posLE_trans {a b c : Option Dec} (h1 : posLE a b = true) (h2 : posLE b c = true) :
    posLE a c = true := by
  cases a <;> cases b <;> cases c <;> simp_all [posLE]
  exact Dec.le_trans' h1 h2

instance : IsTotal FinalRow finalRel :=
  ⟨fun a b => posLE_total a.pos b.pos⟩

instance : IsTrans FinalRow finalRel :=
  ⟨fun _ _ _ h1 h2 => posLE_trans h1 h2⟩

/-! ## Claim C1 -/

/-- Claim C1 is a code bug: the first pattern of the project mask
(line 134, `df['Проект'].str.contains(proj)`) is a plain substring test, so
a Project field "ROX, SOL" matches a query for "RO" and for "OL" even though
the code's own comments ("Точное совпадение" and the three list-boundary
patterns) and the spec require delimiter-respecting matching.  This theorem
evaluates the embedded code at the failing input: the whole pipeline keeps
the "ROX, SOL" row for the query tag "RO". -/
theorem c1_project_substring_bug :
    projectMask ["RO"] (some "ROX, SOL") = true
  ∧ projectMask ["OL"] (some "ROX, SOL") = true
  ∧ filter_promo_data sampleT "01.01.2025" "31.01.2025" "Слоты" ["RO"] "RU" none false false
      = .ok ⟨finalCols, [⟨some ⟨2, 0⟩, some "Book of Ra", some "Novomatic",
          "10.01.2025 - 20.01.2025", some "ROX, SOL", some "Слоты"⟩]⟩ :=
  ⟨rfl, rfl, rfl⟩

/-! ## Claim C2 -/

theorem SDate.key_inj {a b : SDate} (ha : a.Valid) (hb : b.Valid)
    (h : a.key = b.key) : a = b := by
  obtain ⟨ha1, ha2, ha3, ha4⟩ := ha
  obtain ⟨hb1, hb2, hb3, hb4⟩ := hb
  cases a; cases b
  simp only [SDate.key] at h
  simp only [SDate.mk.injEq]
  simp only at ha1 ha2 ha3 ha4 hb1 hb2 hb3 hb4
  omega

/-- Claim C2: the date filter keeps a row according to exactly one of four
mutually exclusive modes selected by the two boolean flags — both exact:
start and end must both coincide with the query bounds; exact start only:
the start must coincide; exact end only: the end must coincide; neither:
interval overlap `PromoStart <= query.end` and `PromoEnd >= query.start`
(dates ordered by their chronological key). -/
theorem c2_date_modes (qs qe s e : SDate) (hs : s.Valid) (he : e.Valid)
    (hqs : qs.Valid) (hqe : qe.Valid) :
    (dateMask true true qs qe s e = true ↔ (s = qs ∧ e = qe))
  ∧ (dateMask true false qs qe s e = true ↔ s = qs)
  ∧ (dateMask false true qs qe s e = true ↔ e = qe)
  ∧ (dateMask false false qs qe s e = true ↔ (s.key ≤ qe.key ∧ qs.key ≤ e.key)) := by
  have k1 : dateMask true true qs qe s e = true ↔ (s.key = qs.key ∧ e.key = qe.key) := by
    simp [dateMask]
  have k2 : dateMask true false qs qe s e = true ↔ s.key = qs.key := by
    simp [dateMask]
  have k3 : dateMask false true qs qe s e = true ↔ e.key = qe.key := by
    simp [dateMask]
  have k4 : dateMask false false qs qe s e = true ↔ (s.key ≤ qe.key ∧ qs.key ≤ e.key) := by
    simp [dateMask]
  refine ⟨?_, ?_, ?_, k4⟩
  · exact k1.trans ⟨fun ⟨h1, h2⟩ => ⟨SDate.key_inj hs hqs h1, SDate.key_inj he hqe h2⟩,
      fun ⟨h1, h2⟩ => ⟨by rw [h1], by rw [h2]⟩⟩
  · exact k2.trans ⟨fun h1 => SDate.key_inj hs hqs h1, fun h1 => by rw [h1]⟩
  · exact k3.trans ⟨fun h1 => SDate.key_inj he hqe h1, fun h1 => by rw [h1]⟩

/-- Witness for C2, at the spec's own example dates: the record
[01.01.2025, 10.01.2025] against the query [05.01.2025, 20.01.2025] matches
in overlap mode, does not match in exact-start mode, and a query starting
01.01.2025 matches in exact-start mode. -/
theorem c2_date_modes_witness :
    dateMask false false ⟨5, 1, 2025⟩ ⟨20, 1, 2025⟩ ⟨1, 1, 2025⟩ ⟨10, 1, 2025⟩ = true
  ∧ ¬ (dateMask true false ⟨5, 1, 2025⟩ ⟨20, 1, 2025⟩ ⟨1, 1, 2025⟩ ⟨10, 1, 2025⟩ = true)
  ∧ dateMask true false ⟨1, 1, 2025⟩ ⟨20, 1, 2025⟩ ⟨1, 1, 2025⟩ ⟨10, 1, 2025⟩ = true := by
  have h1 := c2_date_modes ⟨5, 1, 2025⟩ ⟨20, 1, 2025⟩ ⟨1, 1, 2025⟩ ⟨10, 1, 2025⟩
    (by decide) (by decide) (by decide) (by decide)
  have h2 := c2_date_modes ⟨1, 1, 2025⟩ ⟨20, 1, 2025⟩ ⟨1, 1, 2025⟩ ⟨10, 1, 2025⟩
    (by decide) (by decide) (by decide) (by decide)
  exact ⟨h1.2.2.2.mpr (by decide), fun hc => by simpa using h1.2.1.mp hc,
    h2.2.1.mpr rfl⟩

/-! ## Claim C3 -/

theorem padded_getD (r : List String) (w j : Nat) :
    (r.map some ++ List.replicate (w - r.length) (none : Cell)).getD j none = r[j]? := by
  rcases Nat.lt_or_ge j r.length with hj | hj
  · rw [List.getD_eq_getElem?_getD, List.getElem?_append_left (by simpa using hj),
      List.getElem?_map]
    cases r[j]? <;> rfl
  · rw [List.getD_eq_getElem?_getD, List.getElem?_append_right (by simpa using hj),
      List.getElem?_replicate, List.getElem?_eq_none hj]
    split <;> rfl

theorem le_maxWidth {r : List String} {rows : List (List String)} (hr : r ∈ rows) :
    r.length ≤ maxWidth rows := by
  induction rows with
  | nil => cases hr
  | cons x xs ih =>
    rcases List.mem_cons.mp hr with rfl | hmem
    · exact le_max_left _ _
    · exact le_trans (ih hmem) (le_max_right _ _)

/-- Claim C3, corrected.  The original claim quantifies over every grid with
at least one row; but the `pd.DataFrame(values[1:], columns=values[0])`
constructor fails whenever the widest data row does not have exactly the
header's width (see `c3_loader_counterexample`).  Amended claim: for every
grid with at least one row whose data rows are either absent or have maximum
width equal to the header length, `load` returns a table with row count equal
to input row count minus one, rows keyed by the header (every row has
exactly the header's width), and rows shorter than the header padded with
empty values in the missing trailing columns; a grid with no rows at all
fails with an error (see `load_sheet_to_df`'s first branch). -/
theorem c3_loader_shape (header : List String) (dataRows : List (List String))
    (h : dataRows = [] ∨ maxWidth dataRows = header.length) :
    ∃ df, load_sheet_to_df (header :: dataRows) = .ok df
      ∧ df.cols = header
      ∧ df.rows.length = (header :: dataRows).length - 1
      ∧ (∀ r ∈ df.rows, r.length = header.length)
      ∧ (∀ i, i < dataRows.length → ∀ j,
          (df.rows.getD i []).getD j none = (dataRows.getD i [])[j]?) := by
  cases dataRows with
  | nil =>
    exact ⟨⟨header, []⟩, rfl, rfl, rfl, by simp, by simp⟩
  | cons r0 rs =>
    have hw : maxWidth (r0 :: rs) = header.length := h.resolve_left (by simp)
    refine ⟨⟨header, (r0 :: rs).map
        (fun r => r.map some ++ List.replicate (maxWidth (r0 :: rs) - r.length) none)⟩,
      ?_, rfl, by simp, ?_, ?_⟩
    · simp [load_sheet_to_df, hw]
    · intro r hr
      obtain ⟨x, hx, rfl⟩ := List.mem_map.mp hr
      have hle := le_maxWidth hx
      simp only [List.length_append, List.length_map, List.length_replicate]
      omega
    · intro i hi j
      have hget : ((r0 :: rs).map
            (fun r => r.map some ++ List.replicate (maxWidth (r0 :: rs) - r.length) none)).getD i []
          = (fun r => r.map some ++ List.replicate (maxWidth (r0 :: rs) - r.length) none)
              ((r0 :: rs).getD i []) := by
        rw [List.getD_eq_getElem?_getD, List.getElem?_map,
          List.getElem?_eq_getElem hi, List.getD_eq_getElem?_getD,
          List.getElem?_eq_getElem hi]
        rfl
      rw [hget]
      exact padded_getD _ _ _

/-- Counterexample for C3 as stated: a two-row grid whose single data row is
narrower than the header makes the constructor fail instead of returning a
padded one-row table. -/
theorem c3_loader_counterexample :
    load_sheet_to_df [["a", "b"], ["x"]] = .error .shapeMismatch := rfl

/-- Witness for C3 (amended), on a grid whose second data row has full
width: the short first data row is padded with an empty trailing cell. -/
theorem c3_loader_shape_witness :
    (DF.mk ["a", "b"] [[some "x", none], [some "y", some "z"]]).rows.length
      = ([["a", "b"], ["x"], ["y", "z"]] : List (List String)).length - 1 := by
  obtain ⟨df, h1, -, h3, -, -⟩ :=
    c3_loader_shape ["a", "b"] [["x"], ["y", "z"]] (Or.inr rfl)
  have hc : load_sheet_to_df [["a", "b"], ["x"], ["y", "z"]]
      = .ok (DF.mk ["a", "b"] [[some "x", none], [some "y", some "z"]]) := rfl
  rw [hc] at h1
  injection h1 with h1
  rw [← h1] at h3
  exact h3

/-! ## Claim C8 -/

theorem parseRowDates_error {cols : List String} {rows : List (List Cell)} {err : FilterError}
    (h : parseRowDates cols rows = .error err) : err = .dateParse := by
  induction rows with
  | nil => simp [parseRowDates] at h
  | cons r rs ih =>
    rw [parseRowDates] at h
    split at h
    · split at h
      · cases h
      · injection h with h
        subst h
        exact ih (by assumption)
    · injection h with h
      exact h.symm

theorem filterBody_ne_invalidGeo (df : DF) (sd ed cat : String) (proj : List String)
    (geo : String) (sub : Option String) (es ee : Bool) :
    filterBody df sd ed cat proj geo sub es ee ≠ .error .invalidGeo := by
  rw [filterBody]
  split
  · intro h; cases h
  · split
    · split
      · split
        · rw [buildFinal]
          split
          · intro h; cases h
          · intro h; cases h
        · intro h
          injection h with h
          exact absurd (parseRowDates_error (by assumption)) (by rw [h]; intro hc; cases hc)
      · intro h; cases h
    · intro h; cases h

/-- Claim C8: the filter fails with the geography validation error exactly
when the query geography is outside the fixed set {RU, KZ, UA, CA, DE, AU,
BR, PL, PT, CH, AT}; the check happens before any filtering (the outcome
does not depend on the table or any other argument), and with a geography
inside the set the validation error is never produced. -/
theorem c8_geo_validation (df : DF) (sd ed cat : String) (proj : List String)
    (geo : String) (sub : Option String) (es ee : Bool) :
    filter_promo_data df sd ed cat proj geo sub es ee = .error .invalidGeo
      ↔ validGeos.contains geo = false := by
  rw [filter_promo_data]
  split
  · rename_i hgeo
    rw [hgeo]
    exact iff_of_false (filterBody_ne_invalidGeo df sd ed cat proj geo sub es ee) (by simp)
  · rename_i hgeo
    simp only [Bool.not_eq_true] at hgeo
    exact iff_of_true rfl hgeo

/-- Witness for C8: the geography "XX" is rejected regardless of the table,
and the same call with "RU" does not produce the validation error. -/
theorem c8_geo_validation_witness :
    filter_promo_data sampleT "01.01.2025" "31.01.2025" "Слоты" [] "XX" none false false
      = .error .invalidGeo
  ∧ ¬ (filter_promo_data sampleT "01.01.2025" "31.01.2025" "Слоты" [] "RU" none false false
      = .error .invalidGeo) := by
  constructor
  · exact (c8_geo_validation sampleT "01.01.2025" "31.01.2025" "Слоты" [] "XX" none
      false false).mpr rfl
  · intro h
    have := (c8_geo_validation sampleT "01.01.2025" "31.01.2025" "Слоты" [] "RU" none
      false false).mp h
    simp [validGeos] at this

/-! ## Claim C9 -/

theorem parseRowDates_bad {cols : List String} {rows : List (List Cell)}
    (hbad : ∃ r ∈ rows, (getCell cols r "Старт промо").bind parseDate? = none
        ∨ (getCell cols r "Завершение промо").bind parseDate? = none) :
    parseRowDates cols rows = .error .dateParse := by
  induction rows with
  | nil => simp at hbad
  | cons r rs ih =>
    obtain ⟨x, hx, hfail⟩ := hbad
    rw [parseRowDates]
    rcases List.mem_cons.mp hx with rfl | hmem
    · rcases hfail with h | h
      · rw [h]
      · cases h1 : (getCell cols x "Старт промо").bind parseDate? with
        | none => rfl
        | some s => rw [h]
    · have hrec := ih ⟨x, hmem, hfail⟩
      cases h1 : (getCell cols r "Старт промо").bind parseDate? with
      | none => rfl
      | some s =>
        cases h2 : (getCell cols r "Завершение промо").bind parseDate? with
        | none => rfl
        | some e => rw [hrec]

/-- Claim C9: when any row that survives the required-column and Year
filtering has a promo start or end cell that does not parse as a
day.month.year date, the whole filter call fails with the date parse error
(no result table; the bad row is not skipped).  The hypotheses put the call
past the earlier checks: a valid geography, a subcategory present when
required, the required columns present, and parseable query dates. -/
theorem c9_unparseable_dates_abort (df : DF) (sd ed cat : String) (proj : List String)
    (geo : String) (sub : Option String) (es ee : Bool) (qs qe : SDate)
    (hgeo : validGeos.contains geo = true)
    (hsub : ¬(cat = "КАТЕГОРИЯ" ∧ sub = none))
    (hcols : ((requiredColumns cat).all fun c => (normDF df).cols.contains c) = true)
    (hqs : parseDate? sd = some qs) (hqe : parseDate? ed = some qe)
    (hbad : ∃ r ∈ (droppedRows df cat).rows,
        (getCell (droppedRows df cat).cols r "Старт промо").bind parseDate? = none
      ∨ (getCell (droppedRows df cat).cols r "Завершение промо").bind parseDate? = none) :
    filter_promo_data df sd ed cat proj geo sub es ee = .error .dateParse := by
  rw [filter_promo_data]
  rw [hgeo]
  rw [if_pos rfl]
  rw [filterBody, if_neg hsub, if_pos hcols, hqs, hqe, parseRowDates_bad hbad]

/-- Witness for C9: the one-row table whose promo start is "31.02.2025"
(February has no day 31) makes the whole call fail with the parse error. -/
theorem c9_unparseable_dates_abort_witness :
    filter_promo_data sampleBadDate "01.01.2025" "31.01.2025" "Слоты" ["ROX"] "RU"
      none false false = .error .dateParse := by
  refine c9_unparseable_dates_abort sampleBadDate "01.01.2025" "31.01.2025" "Слоты"
    ["ROX"] "RU" none false false ⟨1, 1, 2025⟩ ⟨31, 1, 2025⟩ rfl (by simp) rfl rfl rfl
    ⟨[some "Book of Ra", some "Novomatic", some "Слоты", some "ROX, SOL",
      some "31.02.2025", some "20.01.2025", some "2"], by decide, Or.inl rfl⟩

/-! ## Claim C5 -/

theorem yearFilter_cols (df : DF) : (yearFilter df).cols = df.cols := by
  rw [yearFilter]
  split <;> rfl

theorem droppedRows_cols (df : DF) (category : String) :
    (droppedRows df category).cols = df.cols := by
  rw [droppedRows, yearFilter_cols]
  rfl

theorem parseRowDates_mem {cols : List String} {rows : List (List Cell)}
    {parsed : List (List Cell × SDate × SDate)}
    (h : parseRowDates cols rows = .ok parsed) :
    ∀ t ∈ parsed, t.1 ∈ rows
      ∧ (getCell cols t.1 "Старт промо").bind parseDate? = some t.2.1
      ∧ (getCell cols t.1 "Завершение промо").bind parseDate? = some t.2.2 := by
  induction rows generalizing parsed with
  | nil =>
    rw [parseRowDates] at h
    injection h with h
    subst h
    intro t ht
    cases ht
  | cons r rs ih =>
    rw [parseRowDates] at h
    split at h
    · rename_i s e h1 h2
      split at h
      · rename_i ts hts
        injection h with h
        subst h
        intro t ht
        rcases List.mem_cons.mp ht with rfl | hmem
        · exact ⟨List.mem_cons_self _ _, h1, h2⟩
        · obtain ⟨hm, hp1, hp2⟩ := ih hts t hmem
          exact ⟨List.mem_cons_of_mem _ hm, hp1, hp2⟩
      · cases h
    · cases h

/-- Claim C5: whenever the filter succeeds, the result has exactly the six
columns Позиция, Игра, Провайдер, Период, Проекты, Категория in that order,
and every output row comes from a surviving input row, with Период equal to
the formatted start date, " - ", and the formatted end date (each rendered
day.month.year), and with the position taken (then coerced to numeric) from
the literal "Позиция" column when the category is "КАТЕГОРИЯ" or "НОВИНКИ"
and from the column named by the query geography otherwise. -/
theorem c5_output_projection (df : DF) (sd ed cat : String) (proj : List String)
    (geo : String) (sub : Option String) (es ee : Bool) (out : FinalDF)
    (h : filter_promo_data df sd ed cat proj geo sub es ee = .ok out) :
    out.cols = finalCols
  ∧ ∀ r ∈ out.rows, ∃ row s e,
      row ∈ (droppedRows df cat).rows
      ∧ (getCell df.cols row "Старт промо").bind parseDate? = some s
      ∧ (getCell df.cols row "Завершение промо").bind parseDate? = some e
      ∧ r.period = fmtDate s ++ " - " ++ fmtDate e
      ∧ r.pos = (getCell df.cols row (posColumn cat geo)).bind parseNum?
      ∧ r.game = getCell df.cols row "Игра"
      ∧ r.provider = getCell df.cols row "Провайдер"
      ∧ r.projects = getCell df.cols row "Проект"
      ∧ r.category = getCell df.cols row "Категория" := by
  rw [filter_promo_data] at h
  split at h
  case isFalse => cases h
  rw [filterBody] at h
  split at h
  · cases h
  split at h
  case isFalse => cases h
  split at h
  case h_2 => cases h
  rename_i qs qe hqs hqe
  split at h
  case h_2 => cases h
  rename_i parsed hparsed
  rw [buildFinal] at h
  split at h
  case isFalse => cases h
  injection h with h
  subst h
  refine ⟨rfl, ?_⟩
  intro r hr
  have hperm : (sortFinal ((List.map (buildRow (droppedRows df cat).cols cat geo)
      (survivorRows cat sub proj es ee qs qe (droppedRows df cat).cols parsed)).map
        coerceRow)).Perm _ := List.perm_insertionSort finalRel _
  have hr2 := hperm.mem_iff.mp hr
  obtain ⟨raw, hraw, rfl⟩ := List.mem_map.mp hr2
  obtain ⟨t, ht, rfl⟩ := List.mem_map.mp hraw
  have htp : t ∈ parsed := (List.mem_filter.mp ht).1
  obtain ⟨hm, hp1, hp2⟩ := parseRowDates_mem hparsed t htp
  rw [droppedRows_cols] at hp1 hp2
  refine ⟨t.1, t.2.1, t.2.2, hm, hp1, hp2, rfl, ?_, ?_, ?_, ?_, ?_⟩ <;>
    simp [coerceRow, buildRow, droppedRows_cols]

/-- Witness for C5: a successful concrete run whose single output row has
position 2 (taken from the geography column "RU"), the period string
"10.01.2025 - 20.01.2025", and the six-column schema. -/
theorem c5_output_projection_witness :
    (FinalDF.mk finalCols [⟨some ⟨2, 0⟩, some "Book of Ra", some "Novomatic",
      "10.01.2025 - 20.01.2025", some "ROX, SOL", some "Слоты"⟩]).cols = finalCols :=
  (c5_output_projection sampleT "01.01.2025" "31.01.2025" "Слоты" ["ROX"] "RU" none
    false false _ rfl).1

/-! ## Claim C6 -/

theorem lastN_length_le (n : Nat) (l : List α) : (lastN n l).length ≤ n := by
  simp only [lastN, List.length_drop]
  omega

theorem mem_lastN_append (l : List α) (x : α) (n : Nat) (hn : 1 ≤ n) :
    x ∈ lastN n (l ++ [x]) := by
  unfold lastN
  have hlen : (l ++ [x]).length = l.length + 1 := by simp
  rw [hlen, List.drop_append_of_le_length (by omega)]
  exact List.mem_append_right _ (List.mem_singleton.mpr rfl)

/-- Claim C6: the coarse tracker reports a change exactly when the digest of
the normalised current table's serialisation differs from the stored hash;
and whenever it updates the store, the persisted list keeps at most 100
entries, is a suffix of the previous list extended by the new entry (so the
oldest entries are evicted first) and still contains the new entry; with no
change the store is left untouched. -/
theorem c6_change_tracking (hash : String → String) (current : DF) (history : History) :
    ((track_data_changes hash current history).1.has_changes = true
      ↔ some (hash (to_csv (normTrack current))) ≠ history.last_hash)
  ∧ ((track_data_changes hash current history).1.has_changes = true →
        (track_data_changes hash current history).2.changes.length ≤ 100
      ∧ ((track_data_changes hash current history).2.changes).IsSuffix
          (history.changes ++ [(track_data_changes hash current history).1])
      ∧ (track_data_changes hash current history).1
          ∈ (track_data_changes hash current history).2.changes)
  ∧ ((track_data_changes hash current history).1.has_changes = false →
        (track_data_changes hash current history).2 = history) := by
  obtain ⟨chs, lh⟩ := history
  cases lh with
  | none =>
    refine ⟨by simp [track_data_changes], fun _ => ⟨?_, ?_, ?_⟩,
      by simp [track_data_changes]⟩
    · exact lastN_length_le 100 _
    · exact List.drop_suffix _ _
    · exact mem_lastN_append chs _ 100 (by omega)
  | some h0 =>
    cases hb : hash (to_csv (normTrack current)) != h0 with
    | false =>
      have he : hash (to_csv (normTrack current)) = h0 := by simpa using hb
      refine ⟨?_, ?_, ?_⟩ <;> simp [track_data_changes, hb, he]
    | true =>
      have he : ¬ hash (to_csv (normTrack current)) = h0 := by simpa using hb
      refine ⟨by simp [track_data_changes, hb, he], fun _ => ⟨?_, ?_, ?_⟩,
        by simp [track_data_changes, hb]⟩ <;>
        simp only [track_data_changes, hb, if_true]
      · exact lastN_length_le 100 _
      · exact List.drop_suffix _ _
      · exact mem_lastN_append chs _ 100 (by omega)

/-- Witness for C6: a first run (no stored hash) on the sample table, with
the identity function standing in for the digest, reports a change, stores
it, and keeps the history within the cap. -/
theorem c6_change_tracking_witness :
    (track_data_changes id sampleT ⟨[], none⟩).1.has_changes = true
  ∧ (track_data_changes id sampleT ⟨[], none⟩).2.changes.length ≤ 100 := by
  have h := c6_change_tracking id sampleT ⟨[], none⟩
  have h1 : (track_data_changes id sampleT ⟨[], none⟩).1.has_changes = true :=
    h.1.mpr (by simp)
  exact ⟨h1, (h.2.1 h1).1⟩

/-! ## Claim C7 -/

theorem mem_of_dedupAux {x : String} {seen l : List String} (h : x ∈ dedupAux seen l) :
    x ∈ l := by
  induction l generalizing seen with
  | nil => cases h
  | cons a as ih =>
    rw [dedupAux] at h
    split at h
    · exact List.mem_cons_of_mem _ (ih h)
    · rcases List.mem_cons.mp h with rfl | hm
      · exact List.mem_cons_self _ _
      · exact List.mem_cons_of_mem _ (ih hm)

theorem dedup_filter_not_contains (l : List String) :
    (dedupKeys l).filter (fun k => !(l.contains k)) = [] := by
  apply List.filter_eq_nil_iff.mpr
  intro k hk
  have hm : k ∈ l := mem_of_dedupAux hk
  simp [hm]

theorem filterMap_const_none (l : List α) :
    (l.filterMap fun _ => (none : Option β)) = [] :=
  List.filterMap_eq_nil_iff.mpr (fun _ _ => rfl)

theorem cellChanges_self (cols : List String) (r : List Cell) :
    cellChanges cols cols r r = [] := by
  apply List.filterMap_eq_nil_iff.mpr
  intro c hc
  by_cases hcomp : (c == "_composite_key") = true
  · simp [cellChanges, hcomp]
  · have hcon : cols.contains c = true := by simp [hc]
    cases hv : getCell cols r c with
    | none => simp [cellChanges, hcomp, hcon, hv, hc]
    | some v => simp [cellChanges, hcomp, hcon, hv, hc]

/-- Claim C7: diffing a non-empty table with at least one usable natural key
column against itself yields no added, no deleted and no modified rows, and
every summary count (rows added, deleted, modified, cells changed, total
changes) is zero. -/
theorem c7_self_diff (T : DF) (h1 : T.rows.isEmpty = false) (h2 : T.cols.isEmpty = false)
    (h3 : ∃ c ∈ naturalKeys, T.cols.contains c = true) :
    (get_detailed_row_changes T T).1 = ⟨[], [], [], ⟨0, 0, 0, 0, 0⟩⟩ := by
  have hde : dfEmpty T = false := by simp [dfEmpty, h1, h2]
  obtain ⟨c, hcmem, hcc⟩ := h3
  have hk : (naturalKeys.filter (fun x => T.cols.contains x && T.cols.contains x)).isEmpty
      = false := by
    have hmem : c ∈ naturalKeys.filter (fun x => T.cols.contains x && T.cols.contains x) :=
      List.mem_filter.mpr ⟨hcmem, by simp only [hcc, Bool.and_self]⟩
    cases hfil : naturalKeys.filter (fun x => T.cols.contains x && T.cols.contains x) with
    | nil => rw [hfil] at hmem; cases hmem
    | cons a l => rfl
  simp only [get_detailed_row_changes, hde, hk, Bool.and_self, Bool.false_eq_true, if_false]
  simp only [dedup_filter_not_contains, cellChanges_self, List.isEmpty_nil, if_true,
    filterMap_const_none, List.length_nil, List.map_nil, List.sum_nil]

/-- Witness for C7: the one-row sample table diffed against itself reports
no changes at all. -/
theorem c7_self_diff_witness :
    (get_detailed_row_changes sampleT sampleT).1 = ⟨[], [], [], ⟨0, 0, 0, 0, 0⟩⟩ :=
  c7_self_diff sampleT rfl rfl ⟨"Игра", by decide, rfl⟩

/-! ## Claim C10 -/

theorem findIdx?_mem {l : List String} {name : String} {i start : Nat}
    (h : List.findIdx? (fun x => x == name) l start = some i) : name ∈ l := by
  induction l generalizing start with
  | nil => simp [List.findIdx?] at h
  | cons x xs ih =>
    rw [List.findIdx?_cons] at h
    split at h
    · rename_i hx
      have hxe : x = name := by simpa using hx
      exact hxe ▸ List.mem_cons_self _ _
    · exact List.mem_cons_of_mem _ (ih h)

theorem setCol_contains_self (df : DF) (name : String) (vals : List Cell) :
    (setCol df name vals).cols.contains name = true := by
  rw [setCol]
  split
  · rename_i i hfind
    simp [findIdx?_mem hfind]
  · simp

theorem setCol_contains_mono {df : DF} {c : String} (hc : df.cols.contains c = true)
    (name : String) (vals : List Cell) :
    (setCol df name vals).cols.contains c = true := by
  rw [setCol]
  split
  · simpa using hc
  · have hm : c ∈ df.cols := by simpa using hc
    simp [hm]

/-- Claim C10, corrected.  The original claim quantifies over every pair of
tables with at least one non-empty side; but the differ short-circuits and
mutates nothing when either side is empty (see `c10_counterexample`).
Amended claim: when both inputs are non-empty the differ mutates both caller
frames in place, adding a '_composite_key' column to each (and a '_row_key'
column when none of the natural key columns is present in both), and those
service columns remain on the inputs when the call returns. -/
theorem c10_in_place_mutation (old_df new_df : DF)
    (ho : dfEmpty old_df = false) (hn : dfEmpty new_df = false) :
    (get_detailed_row_changes old_df new_df).2.1.cols.contains "_composite_key" = true
  ∧ (get_detailed_row_changes old_df new_df).2.2.cols.contains "_composite_key" = true
  ∧ ((naturalKeys.filter
        (fun c => old_df.cols.contains c && new_df.cols.contains c)).isEmpty = true →
      (get_detailed_row_changes old_df new_df).2.1.cols.contains "_row_key" = true
    ∧ (get_detailed_row_changes old_df new_df).2.2.cols.contains "_row_key" = true) := by
  cases hkc : (naturalKeys.filter
      (fun c => old_df.cols.contains c && new_df.cols.contains c)).isEmpty with
  | false =>
    refine ⟨?_, ?_, ?_⟩ <;> simp only [get_detailed_row_changes, ho, hn, hkc,
      Bool.false_and, Bool.and_false, Bool.false_eq_true, if_false]
    · exact setCol_contains_self _ _ _
    · exact setCol_contains_self _ _ _
    · intro hcontra
      cases hcontra
  | true =>
    refine ⟨?_, ?_, fun _ => ⟨?_, ?_⟩⟩ <;> simp only [get_detailed_row_changes, ho, hn, hkc,
      Bool.false_and, Bool.and_false, Bool.false_eq_true, if_false, if_true]
    · exact setCol_contains_self _ _ _
    · exact setCol_contains_self _ _ _
    · exact setCol_contains_mono (setCol_contains_self _ _ _) _ _
    · exact setCol_contains_mono (setCol_contains_self _ _ _) _ _

/-- Counterexample for C10 as stated: with an empty old table and a
non-empty new table (so "at least one is non-empty") the differ
short-circuits and returns both frames unchanged — no '_composite_key'
column is added to either caller frame. -/
theorem c10_counterexample :
    (get_detailed_row_changes ⟨["Игра"], []⟩ ⟨["Игра"], [[some "A"]]⟩).2.1
        = ⟨["Игра"], []⟩
  ∧ (get_detailed_row_changes ⟨["Игра"], []⟩ ⟨["Игра"], [[some "A"]]⟩).2.2
        = ⟨["Игра"], [[some "A"]]⟩
  ∧ ((get_detailed_row_changes ⟨["Игра"], []⟩
        ⟨["Игра"], [[some "A"]]⟩).2.2.cols.contains "_composite_key" = false) :=
  ⟨rfl, rfl, rfl⟩

/-- Witness for C10 (amended): on a concrete pair of one-row tables sharing
no natural key column, both returned frames carry the two service columns. -/
theorem c10_in_place_mutation_witness :
    (get_detailed_row_changes ⟨["A"], [[some "1"]]⟩
        ⟨["B"], [[some "2"]]⟩).2.1.cols.contains "_composite_key" = true
  ∧ (get_detailed_row_changes ⟨["A"], [[some "1"]]⟩
        ⟨["B"], [[some "2"]]⟩).2.1.cols.contains "_row_key" = true := by
  have h := c10_in_place_mutation ⟨["A"], [[some "1"]]⟩ ⟨["B"], [[some "2"]]⟩ rfl rfl
  exact ⟨h.1, (h.2.2 rfl).1⟩

end Promo
